import Mathlib

/-!
Verification development for the SchedulingApp repository.

The repository holds two standalone variants of a schedule lookup server:
`src/server.js` (the "permissive / grouping" variant) and
`src/unnamed/part_000` (the "strict / upload" variant).  Both parse a
spreadsheet into an in-memory table of rows and answer `GET /schedule`
queries; `part_000` additionally handles `POST /admin/upload`.

The embedding below models a parsed worksheet as a grid of string cell
values (the granularity at which the claims speak), a row as an
association list from field name to string value (mirroring the dynamic
objects the JavaScript code builds), and each HTTP handler as a pure
function from its inputs (query string, current table, reload result) to
a result record carrying the status code, the response body and the
number of `loadSchedule` calls the handler performed.
-/

namespace SchedApp

/-- A schedule row: an association list from field name to cell value,
mirroring the dynamic JavaScript objects built by both variants. -/
abbrev Row := List (String × String)

/-- Field access `row.F` with JavaScript's `row.F || ""` defaulting: a
missing key (or an empty-string value, which is falsy) yields `""`. -/
def getField (r : Row) (k : String) : String := (r.lookup k).getD ""

/-- The whitespace characters trimmed by `String.prototype.trim` that can
occur in spreadsheet cell text (ASCII whitespace). -/
def isWs (c : Char) : Bool := c == ' ' || c == '\t' || c == '\n' || c == '\r'

/-- Model of `String.prototype.trim` on character lists: drop whitespace
from the front, then from the back. -/
def trimChars (l : List Char) : List Char :=
  ((l.dropWhile isWs).reverse.dropWhile isWs).reverse

/-- Model of JavaScript `s.trim()`. -/
def jsTrim (s : String) : String := String.mk (trimChars s.data)

/-- Model of JavaScript `s.toLowerCase()` (ASCII case folding). -/
def lowerStr (s : String) : String := String.mk (s.data.map Char.toLower)

/-- One `String.prototype.replaceAll` pass with a single-character
pattern: each occurrence of `p` becomes `rep`, other characters are kept. -/
def replCharL (p : Char) (rep : List Char) (l : List Char) : List Char :=
  l.flatMap (fun c => if c == p then rep else [c])

/-- `escapeHtml` from `src/server.js`: sequential `replaceAll` of
`&`, `<`, `>`, `"`, `'` (in that order) by their HTML entities. -/
def escapeHtml (s : String) : String :=
  String.mk (replCharL '\'' "&#039;".data
    (replCharL '"' "&quot;".data
      (replCharL '>' "&gt;".data
        (replCharL '<' "&lt;".data
          (replCharL '&' "&amp;".data s.data)))))

/-- `escape` from `src/unnamed/part_000`: one regex pass replacing each of
`&`, `<`, `>`, `"`, `'` by its entity (`'` becomes `&#39;` here). -/
def part000_escape (s : String) : String :=
  String.mk (s.data.flatMap (fun c =>
    if c == '&' then "&amp;".data
    else if c == '<' then "&lt;".data
    else if c == '>' then "&gt;".data
    else if c == '"' then "&quot;".data
    else if c == '\'' then "&#39;".data
    else [c]))

/-- `hasPre hay nee` holds when `nee` is a prefix of `hay`
(model of the prefix step of `String.prototype.includes`). -/
def hasPre : List Char → List Char → Bool
  | _, [] => true
  | [], _ :: _ => false
  | a :: as, b :: bs => a == b && hasPre as bs

/-- `hasSub hay nee` holds when `nee` occurs contiguously inside `hay`
(model of `String.prototype.includes`). -/
def hasSub : List Char → List Char → Bool
  | [], n => n.isEmpty
  | a :: t, n => hasPre (a :: t) n || hasSub t n

/-- `hasSubStr hay nee`: `nee` is a substring of `hay`. -/
def hasSubStr (hay nee : String) : Bool := hasSub hay.data nee.data

/-- A parsed worksheet: the grid of cell values, row-major, each cell
already rendered as the string the spreadsheet library would surface
(empty string for a blank cell). -/
abbrev Grid := List (List String)

/-- The observable states of the `schedule.xlsx` file that the two
`loadSchedule` functions distinguish: absent, unreadable by the
spreadsheet parser, or readable with a given cell grid. -/
inductive FileState where
  | missing
  | malformed
  | ok (grid : Grid)

/-- The five fixed columns assumed by `part_000`'s `loadSchedule`. -/
def fieldNames : List String := ["Name", "Day", "Time", "Activity", "Description"]

/-- One data row of `part_000`'s `loadSchedule`: `String(r[i] || "").trim()`
for the first five cells; a missing cell defaults to `""`. -/
def part000_rowOf (cells : List String) : Row :=
  [("Name", jsTrim (cells.getD 0 "")),
   ("Day", jsTrim (cells.getD 1 "")),
   ("Time", jsTrim (cells.getD 2 "")),
   ("Activity", jsTrim (cells.getD 3 "")),
   ("Description", jsTrim (cells.getD 4 ""))]

/-- `part_000`'s `loadSchedule` on a readable grid: `sheet_to_json` with
`header: 1` yields the raw rows; a grid with at most the header row
yields the empty table; otherwise the header row is dropped and each
data row is mapped through `part000_rowOf`. -/
def part000_loadGrid (grid : Grid) : List Row :=
  if grid.length ≤ 1 then [] else (grid.drop 1).map part000_rowOf

/-- `part_000`'s `loadSchedule` over the three file states: a missing
file and a parse failure are both caught and yield the empty table. -/
def part000_load : FileState → List Row
  | .missing => []
  | .malformed => []
  | .ok grid => part000_loadGrid grid

/-- A row whose cells are all blank (skipped by `sheet_to_json`'s
default object output). -/
def rowBlank (cells : List String) : Bool := cells.all (fun c => c == "")

/-- One data row of `server.js`'s `loadSchedule`: `sheet_to_json`'s
default object output pairs each header with the raw cell value below
it, omitting keys whose cell is blank.  No trimming or coercion. -/
def serverJs_rowOf (header : List String) (cells : List String) : Row :=
  (header.zip cells).filter (fun p => !(p.2 == ""))

/-- `server.js`'s `loadSchedule` on a readable grid: `sheet_to_json`
default output — first row is the header, blank rows are skipped, cell
values are passed through unchanged. -/
def serverJs_loadGrid (grid : Grid) : List Row :=
  match grid with
  | [] => []
  | header :: dataRows => (dataRows.filter (fun r => !rowBlank r)).map (serverJs_rowOf header)

/-- `server.js`'s `loadSchedule` over the three file states: a missing
file (`existsSync` false) and a parse failure both yield the empty table. -/
def serverJs_load : FileState → List Row
  | .missing => []
  | .malformed => []
  | .ok grid => serverJs_loadGrid grid

/-- The name filter of `part_000`'s `GET /schedule` handler:
`scheduleData.filter(row => row.Name.toLowerCase() === lowerName)` where
`name` is the already-trimmed query. -/
def strictMatches (t : List Row) (name : String) : List Row :=
  t.filter (fun r => lowerStr (getField r "Name") == lowerStr name)

/-- The name filter of `server.js`'s `GET /schedule` handler:
`scheduleData.filter(row => String(row.Name || "").toLowerCase().includes(nameQuery))`
where `nameQuery` is the trimmed, lower-cased query. -/
def permMatches (t : List Row) (q : String) : List Row :=
  t.filter (fun r => hasSubStr (lowerStr (getField r "Name")) (lowerStr (jsTrim q)))

/-- The grouping key of `server.js`: `row.Day || "Unknown"`. -/
def dayOf (r : Row) : String :=
  if getField r "Day" == "" then "Unknown" else getField r "Day"

/-- `Object.keys(days)` after the grouping loop of `server.js`: the day
keys in order of first occurrence. -/
def firstKeys (rows : List Row) : List String :=
  rows.foldl (fun acc r => if dayOf r ∈ acc then acc else acc ++ [dayOf r]) []

/-- The fixed day ordering of `server.js`. -/
def dayOrder : List String :=
  ["Monday", "Tuesday", "Wednesday", "Thursday", "Friday", "Saturday", "Sunday"]

/-- `dayOrder.indexOf(d)` with JavaScript semantics: `-1` when absent. -/
def dayIdx (d : String) : Int :=
  if dayOrder.contains d then (dayOrder.indexOf d : Int) else -1

/-- The comparator `dayOrder.indexOf(a) - dayOrder.indexOf(b)` of
`server.js`, as an ordering relation on day keys. -/
def dayLe (a b : String) : Prop := dayIdx a ≤ dayIdx b

instance : DecidableRel dayLe := fun a b => inferInstanceAs (Decidable (dayIdx a ≤ dayIdx b))

instance : IsTotal String dayLe := ⟨fun a b => Int.le_total (dayIdx a) (dayIdx b)⟩

instance : IsTrans String dayLe := ⟨fun _ _ _ hab hbc => le_trans hab hbc⟩

/-- `Object.keys(days).sort((a, b) => dayOrder.indexOf(a) - dayOrder.indexOf(b))`:
the distinct day keys sorted by their position in `dayOrder`. -/
def sortedDays (rows : List Row) : List String :=
  (firstKeys rows).insertionSort dayLe

/-- The rows grouped under day `d` (`days[day]` in `server.js`): the rows
whose key is `d`, in source order. -/
def rowsOfDay (d : String) (rows : List Row) : List Row :=
  rows.filter (fun r => dayOf r == d)

/-- Concatenation of HTML fragments (the `+=` accumulation of `server.js`). -/
def strConcat : List String → String
  | [] => ""
  | s :: rest => s ++ strConcat rest

/-- One `<tr>` of `server.js`'s rendered table. -/
def rowTr (r : Row) : String :=
  "<tr>\n        <td><strong>" ++ escapeHtml (getField r "Time") ++
  "</strong></td>\n        <td>" ++ escapeHtml (getField r "Activity") ++
  "</td>\n        <td>" ++ escapeHtml (getField r "Description") ++
  "</td>\n        <td>" ++ escapeHtml (getField r "Location") ++
  "</td>\n      </tr>"

/-- One per-day section of `server.js`'s output: the `<h3>` heading and
the table of that day's rows. -/
def daySection (d : String) (rows : List Row) : String :=
  "<h3 style=\"color: #0066ff; margin: 32px 0 8px;\">" ++ escapeHtml d ++ "</h3>" ++
  "<table border=\"1\" cellpadding=\"10\" cellspacing=\"0\" style=\"border-collapse: collapse; width: 100%; background: #fff;\">\n      <tr><th>Time</th><th>Activity</th><th>Description</th><th>Location</th></tr>" ++
  strConcat ((rowsOfDay d rows).map rowTr) ++ "</table>"

/-- The trailing fragment of `server.js`'s schedule page (divider plus the
embedded PDF viewer). -/
def footerHtml : String :=
  "\n  <hr style=\"margin: 32px 0;\" />\n  <h3>Event Details</h3>\n  <iframe src=\"/pdfviewer\" style=\"width: 100%; height: 800px; border: 1px solid #ddd; border-radius: 8px;\" loading=\"lazy\"></iframe>\n  </div>"

/-- The grouped page of `server.js`: wrapper div, heading, one section per
sorted day key, footer. -/
def renderGrouped (rows : List Row) (heading : String) : String :=
  "<div style=\"font-family: system-ui, sans-serif;\">" ++ heading ++
  strConcat ((sortedDays rows).map (fun d => daySection d rows)) ++ footerHtml

/-- The `<h2>` heading of `server.js` for a named query. -/
def matchHeader (q : String) (n : Nat) : String :=
  "<h2>Schedule for <strong>" ++ escapeHtml q ++ "</strong> (" ++ toString n ++
  " shift" ++ (if 1 < n then "s" else "") ++ ")</h2>"

/-- The 404 body of `server.js` for a query with no matches; the raw query
text is passed through `escapeHtml`. -/
def serverJs_notFoundBody (q : String) : String :=
  "<span class=\"error\">No schedule found for <strong>" ++ escapeHtml q ++
  "</strong>.</span>"

/-- Result of one `GET /schedule` request in `server.js`: status code,
body, the rows rendered, and how many times the handler called
`loadSchedule` (the `server.js` handler never does). -/
structure SJResult where
  status : Nat
  body : String
  rows : List Row
  reloads : Nat

/-- `server.js`'s `GET /schedule` handler on query `q` and table `t`.
An absent `name` parameter reaches the handler as `""`. -/
def serverJs_schedule (q : String) (t : List Row) : SJResult :=
  if lowerStr (jsTrim q) == "" then
    { status := 200, body := renderGrouped t "<h2>Full Schedule</h2>",
      rows := t, reloads := 0 }
  else
    let m := permMatches t q
    if m.length == 0 then
      { status := 404, body := serverJs_notFoundBody q, rows := [], reloads := 0 }
    else
      { status := 200, body := renderGrouped m (matchHeader q m.length),
        rows := m, reloads := 0 }

/-- One `<tr>` of `part_000`'s rendered table. -/
def part000_rowTr (r : Row) : String :=
  "\n    <tr>\n      <td>" ++ part000_escape (getField r "Day") ++
  "</td>\n      <td>" ++ part000_escape (getField r "Time") ++
  "</td>\n      <td>" ++ part000_escape (getField r "Activity") ++
  "</td>\n      <td>" ++ part000_escape (getField r "Description") ++
  "</td>\n    </tr>\n  "

/-- The success page of `part_000` (style block, heading, entry count,
table of matches); `\x7b` and `\x7d` stand for the CSS braces. -/
def part000_successHtml (ms : List Row) : String :=
  "\n    <style>\n      body \x7b font-family: system-ui, sans-serif; padding: 1rem; \x7d\n      table \x7b width: 100%; border-collapse: collapse; margin-top: 1rem; \x7d\n      th, td \x7b border: 1px solid #666; padding: 0.8rem; text-align: left; \x7d\n      th \x7b background: #f0f0f0; \x7d\n      tr:nth-child(even) \x7b background: #fafafa; \x7d\n    </style>\n    <h2>Schedule for " ++
  part000_escape (getField (ms.headD []) "Name") ++
  "</h2>\n    <p><strong>" ++ toString ms.length ++ "</strong> entr" ++
  (if 1 < ms.length then "ies" else "y") ++
  " found.</p>\n    <table>\n      <thead><tr>\n        <th>Day</th>\n        <th>Time</th>\n        <th>Activity</th>\n        <th>Description</th>\n      </tr></thead>\n      <tbody>" ++
  strConcat (ms.map part000_rowTr) ++ "</tbody>\n    </table>\n  "

/-- The 404 body of `part_000` for a query with no matches; note the
trimmed query `name` is interpolated without escaping. -/
def part000_notFoundBody (name : String) : String :=
  "No schedule found for \"" ++ name ++ "\"."

/-- Result of one `GET /schedule` request in `part_000`: status code,
body, and how many times the handler called `loadSchedule`. -/
structure P0Result where
  status : Nat
  body : String
  reloads : Nat

/-- The matching-and-rendering tail of `part_000`'s handler, applied to
the trimmed name and the table in force after any reloads (`n` reloads
were performed before this point). -/
def part000_render (name : String) (data : List Row) (n : Nat) : P0Result :=
  let ms := strictMatches data name
  if ms.length == 0 then
    { status := 404, body := part000_notFoundBody name, reloads := n }
  else
    { status := 200, body := part000_successHtml ms, reloads := n }

/-- `part_000`'s `GET /schedule` handler.  `q` is the raw query, `t` the
in-memory table, `hot` abstracts the hot-reload condition (`lastLoadTime`
set and the file's mtime newer), and `rr` is the table `loadSchedule`
would produce from the current file state (both reload sites read the
same file, hence the same `rr`). -/
def part000_schedule (q : String) (t : List Row) (hot : Bool) (rr : List Row) : P0Result :=
  if jsTrim q == "" then
    { status := 400, body := "Missing or empty ?name= parameter", reloads := 0 }
  else
    let t1 := if hot then rr else t
    let n1 : Nat := if hot then 1 else 0
    if t1.length == 0 then
      if rr.length == 0 then
        { status := 404,
          body := "No schedule data available yet. Please upload an Excel file first.",
          reloads := n1 + 1 }
      else part000_render (jsTrim q) rr (n1 + 1)
    else part000_render (jsTrim q) t1 n1

/-- The two MIME types `part_000`'s multer `fileFilter` accepts. -/
def allowedMimes : List String :=
  ["application/vnd.openxmlformats-officedocument.spreadsheetml.sheet",
   "application/vnd.ms-excel"]

/-- `limits: { fileSize: 10 * 1024 * 1024 }` — the 10 MiB cap. -/
def maxUploadBytes : Nat := 10 * 1024 * 1024

/-- Result of one `POST /admin/upload` request: status code, the name the
file was stored under (if stored), whether `loadSchedule` ran before the
response, and the error reason (if rejected). -/
structure UploadResult where
  status : Nat
  storedAs : Option String
  reloaded : Bool
  reason : Option String

/-- `part_000`'s `POST /admin/upload`: multer rejects a wrong MIME type
(`fileFilter`) or an oversized body (`limits.fileSize`) through the
error middleware (400 with the error message); an absent file yields the
handler's own 400; otherwise the file is stored as `schedule.xlsx`,
`loadSchedule` runs, and the handler responds 200. -/
def adminUpload (present : Bool) (mime : String) (size : Nat) : UploadResult :=
  if !present then
    { status := 400, storedAs := none, reloaded := false,
      reason := some "No file uploaded." }
  else if !(allowedMimes.contains mime) then
    { status := 400, storedAs := none, reloaded := false,
      reason := some "Only .xlsx and .xls files are allowed!" }
  else if maxUploadBytes < size then
    { status := 400, storedAs := none, reloaded := false,
      reason := some "File too large" }
  else
    { status := 200, storedAs := some "schedule.xlsx", reloaded := true,
      reason := none }

/-- Modelled from the spec (§4.3): the acceptance condition stated there —
a file is present, its declared MIME type is one of the two Excel content
types, and its size is at most 10 MiB. -/
def specUploadAccepts (present : Bool) (mime : String) (size : Nat) : Bool :=
  present && allowedMimes.contains mime && decide (size ≤ maxUploadBytes)

/-- A string has no leading or trailing whitespace. -/
def noEdgeWs (s : String) : Bool :=
  (s.data.head?.all (fun c => !isWs c)) && (s.data.getLast?.all (fun c => !isWs c))

/-- A string contains neither `<` nor `>`. -/
def noAngles (s : String) : Bool := s.data.all (fun c => !(c == '<' || c == '>'))

/-- A sample table row used by the concrete witnesses below. -/
def aliceRow : Row :=
  [("Name", "Alice"), ("Day", "Monday"), ("Time", "9am"),
   ("Activity", "Shift A"), ("Description", "")]

/-- A second sample row (a Tuesday shift) for the grouping witnesses. -/
def bobRow : Row :=
  [("Name", "Bob"), ("Day", "Tuesday"), ("Time", "1pm"),
   ("Activity", "Shift B"), ("Description", "")]

/-! ### Helper lemmas -/

theorem hasPre_nil_needle (l : List Char) : hasPre l [] = true := by
  cases l <;> rfl

theorem hasPre_self_append (n y : List Char) : hasPre (n ++ y) n = true := by
  induction n with
  | nil => exact hasPre_nil_needle y
  | cons a as ih => simp [hasPre, ih]

theorem hasSub_nil_needle (l : List Char) : hasSub l [] = true := by
  cases l <;> simp [hasSub, hasPre_nil_needle, List.isEmpty]

theorem hasSub_append_left (x rest n : List Char) (h : hasSub rest n = true) :
    hasSub (x ++ rest) n = true := by
  induction x with
  | nil => simpa using h
  | cons a as ih =>
    show hasSub (a :: (as ++ rest)) n = true
    rw [hasSub]
    simp [ih]

theorem hasSub_mid (x n y : List Char) : hasSub (x ++ (n ++ y)) n = true := by
  apply hasSub_append_left
  cases n with
  | nil => simpa using hasSub_nil_needle y
  | cons b bs =>
    show hasSub (b :: (bs ++ y)) (b :: bs) = true
    rw [hasSub]
    simp only [Bool.or_eq_true]
    exact Or.inl (hasPre_self_append (b :: bs) y)

theorem hasSubStr_sandwich (a b c : String) : hasSubStr (a ++ b ++ c) b = true := by
  unfold hasSubStr
  have h : (a ++ b ++ c).data = a.data ++ (b.data ++ c.data) := by
    simp [String.data_append]
  rw [h]
  exact hasSub_mid a.data b.data c.data

theorem head?_dropWhile_isWs (l : List Char) :
    ∀ c, (l.dropWhile isWs).head? = some c → isWs c = false := by
  induction l with
  | nil => intro c h; simp at h
  | cons a as ih =>
    intro c h
    rw [List.dropWhile_cons] at h
    by_cases ha : isWs a = true
    · rw [if_pos ha] at h
      exact ih c h
    · rw [if_neg ha] at h
      injection h with h
      subst h
      exact Bool.eq_false_iff.mpr ha

theorem noEdgeWs_backTrim (d1 : List Char)
    (hd1 : ∀ c, d1.head? = some c → isWs c = false) :
    noEdgeWs (String.mk (d1.reverse.dropWhile isWs).reverse) = true := by
  unfold noEdgeWs
  show ((d1.reverse.dropWhile isWs).reverse.head?.all (fun c => !isWs c) &&
        (d1.reverse.dropWhile isWs).reverse.getLast?.all (fun c => !isWs c)) = true
  rw [List.head?_reverse, List.getLast?_reverse]
  cases h2 : d1.reverse.dropWhile isWs with
  | nil => simp
  | cons b bs =>
    have hb : isWs b = false :=
      head?_dropWhile_isWs d1.reverse b (by rw [h2]; rfl)
    have hNe : d1.reverse.dropWhile isWs ≠ [] := by rw [h2]; simp
    have hlast : (d1.reverse.dropWhile isWs).getLast? = d1.head? := by
      have h3 : (d1.reverse.takeWhile isWs ++ d1.reverse.dropWhile isWs).getLast? =
          d1.reverse.getLast? := by
        rw [List.takeWhile_append_dropWhile]
      rw [List.getLast?_append, Option.or_of_isSome (List.getLast?_isSome.mpr hNe)] at h3
      rw [h3, List.getLast?_reverse]
    rw [h2] at hlast
    have hlastok : d1.head?.all (fun c => !isWs c) = true := by
      cases hh : d1.head? with
      | none => rfl
      | some c => simp [hd1 c hh]
    rw [hlast]
    simp [hb, hlastok]

theorem noEdgeWs_trimChars (l : List Char) :
    noEdgeWs (String.mk (trimChars l)) = true :=
  noEdgeWs_backTrim (l.dropWhile isWs) (head?_dropWhile_isWs l)

theorem noEdgeWs_jsTrim (s : String) : noEdgeWs (jsTrim s) = true :=
  noEdgeWs_trimChars s.data

theorem all_replCharL (P : Char → Bool) (p : Char) (rep l : List Char)
    (hrep : rep.all P = true) (hkeep : ∀ c, (c == p) = false → P c = true) :
    ((replCharL p rep l).all P) = true := by
  unfold replCharL
  rw [List.all_flatMap]
  rw [List.all_eq_true]
  intro c _
  by_cases hc : (c == p) = true
  · simp [hc, hrep]
  · have := hkeep c (Bool.eq_false_iff.mpr hc)
    simp [hc, this]

theorem all_replCharL_keep (P : Char → Bool) (p : Char) (rep l : List Char)
    (hrep : rep.all P = true) (hl : l.all P = true) :
    ((replCharL p rep l).all P) = true := by
  unfold replCharL
  rw [List.all_flatMap]
  rw [List.all_eq_true]
  intro c hc
  by_cases hcp : (c == p) = true
  · simp [hcp, hrep]
  · have := List.all_eq_true.mp hl c hc
    simp [hcp, this]

theorem jsTrim_empty : jsTrim "" = "" := rfl

theorem part000_render_reloads (name : String) (data : List Row) (n : Nat) :
    (part000_render name data n).reloads = n := by
  unfold part000_render
  dsimp only
  split <;> rfl

theorem all_and_of (P Q : Char → Bool) (l : List Char)
    (hp : l.all P = true) (hq : l.all Q = true) :
    (l.all (fun c => P c && Q c)) = true := by
  rw [List.all_eq_true] at *
  intro c hc
  simp [hp c hc, hq c hc]

theorem noAngles_escapeHtml (s : String) : noAngles (escapeHtml s) = true := by
  unfold noAngles escapeHtml
  show ((replCharL '\'' "&#039;".data
    (replCharL '"' "&quot;".data
      (replCharL '>' "&gt;".data
        (replCharL '<' "&lt;".data
          (replCharL '&' "&amp;".data s.data))))).all
            (fun c => !(c == '<' || c == '>'))) = true
  have hlt : ∀ l : List Char,
      ((replCharL '<' "&lt;".data l).all (fun c => !(c == '<'))) = true := by
    intro l
    apply all_replCharL _ _ _ _ (by decide)
    intro c hc
    simpa using hc
  have hstep3 :
      ((replCharL '>' "&gt;".data
        (replCharL '<' "&lt;".data
          (replCharL '&' "&amp;".data s.data))).all (fun c => !(c == '<'))) = true :=
    all_replCharL_keep _ _ _ _ (by decide) (hlt _)
  have hgt3 :
      ((replCharL '>' "&gt;".data
        (replCharL '<' "&lt;".data
          (replCharL '&' "&amp;".data s.data))).all (fun c => !(c == '>'))) = true := by
    apply all_replCharL _ _ _ _ (by decide)
    intro c hc
    simpa using hc
  have hlt5 :
      ((replCharL '\'' "&#039;".data
        (replCharL '"' "&quot;".data
          (replCharL '>' "&gt;".data
            (replCharL '<' "&lt;".data
              (replCharL '&' "&amp;".data s.data))))).all (fun c => !(c == '<'))) = true :=
    all_replCharL_keep _ _ _ _ (by decide)
      (all_replCharL_keep _ _ _ _ (by decide) hstep3)
  have hgt5 :
      ((replCharL '\'' "&#039;".data
        (replCharL '"' "&quot;".data
          (replCharL '>' "&gt;".data
            (replCharL '<' "&lt;".data
              (replCharL '&' "&amp;".data s.data))))).all (fun c => !(c == '>'))) = true :=
    all_replCharL_keep _ _ _ _ (by decide)
      (all_replCharL_keep _ _ _ _ (by decide) hgt3)
  rw [List.all_eq_true]
  intro c hc
  have h1 := List.all_eq_true.mp hlt5 c hc
  have h2 := List.all_eq_true.mp hgt5 c hc
  simp at h1 h2
  simp [h1, h2]

theorem strConcat_append (x y : List String) :
    strConcat (x ++ y) = strConcat x ++ strConcat y := by
  induction x with
  | nil => simp [strConcat]
  | cons a as ih => simp [strConcat, ih, String.append_assoc]

theorem mem_firstKeys_aux (d : String) (rows : List Row) : ∀ (acc : List String),
    (d ∈ rows.foldl (fun acc r => if dayOf r ∈ acc then acc else acc ++ [dayOf r]) acc ↔
      d ∈ acc ∨ ∃ r ∈ rows, dayOf r = d) := by
  induction rows with
  | nil => intro acc; simp
  | cons r rs ih =>
    intro acc
    rw [List.foldl_cons]
    by_cases hc : dayOf r ∈ acc
    · rw [if_pos hc, ih]
      constructor
      · rintro (h | ⟨r2, h2, hd⟩)
        · exact Or.inl h
        · exact Or.inr ⟨r2, List.mem_cons_of_mem r h2, hd⟩
      · rintro (h | ⟨r2, h2, hd⟩)
        · exact Or.inl h
        · rcases List.mem_cons.mp h2 with h3 | h3
          · subst h3
            exact Or.inl (hd ▸ hc)
          · exact Or.inr ⟨r2, h3, hd⟩
    · rw [if_neg hc, ih]
      constructor
      · rintro (h | ⟨r2, h2, hd⟩)
        · rcases List.mem_append.mp h with h3 | h3
          · exact Or.inl h3
          · have h4 : d = dayOf r := by simpa using h3
            exact Or.inr ⟨r, List.mem_cons_self r rs, h4.symm⟩
        · exact Or.inr ⟨r2, List.mem_cons_of_mem r h2, hd⟩
      · rintro (h | ⟨r2, h2, hd⟩)
        · exact Or.inl (List.mem_append.mpr (Or.inl h))
        · rcases List.mem_cons.mp h2 with h3 | h3
          · subst h3
            exact Or.inl (List.mem_append.mpr (Or.inr (by simp [hd])))
          · exact Or.inr ⟨r2, h3, hd⟩

theorem mem_firstKeys (d : String) (rows : List Row) :
    d ∈ firstKeys rows ↔ ∃ r ∈ rows, dayOf r = d := by
  unfold firstKeys
  rw [mem_firstKeys_aux]
  simp

theorem sorted_mem_split (l : List String)
    (hs : List.Sorted dayLe l) (hM : "Monday" ∈ l) (hT : "Tuesday" ∈ l) :
    ∃ a b c, l = a ++ "Monday" :: (b ++ "Tuesday" :: c) := by
  rcases List.append_of_mem hM with ⟨s, u, rfl⟩
  rcases List.mem_append.mp hT with hTs | hTu
  · exfalso
    have hpair := (List.pairwise_append.mp hs).2.2 "Tuesday" hTs "Monday"
      (List.mem_cons_self _ _)
    exact absurd hpair (by decide)
  · rcases List.mem_cons.mp hTu with h | h
    · exact absurd h (by decide)
    · rcases List.append_of_mem h with ⟨b, c, rfl⟩
      exact ⟨s, b, c, rfl⟩

/-! ### Claim theorems -/

/-- C1: name matching on `GET /schedule` follows each variant's policy.
In the strict variant (`src/unnamed/part_000`), for every table and
non-empty trimmed query, a row is in the result iff it is a table row
whose `Name` equals the query under case-insensitive comparison; in the
permissive variant (`src/server.js`), a row is in the result iff it is a
table row whose `Name` contains the query as a case-insensitive
substring. -/
theorem claim_C1_matching (q : String) (t : List Row) (r : Row)
    (hq : jsTrim q ≠ "") :
    (r ∈ strictMatches t (jsTrim q) ↔
      r ∈ t ∧ lowerStr (getField r "Name") = lowerStr (jsTrim q)) ∧
    (r ∈ permMatches t q ↔
      r ∈ t ∧ hasSubStr (lowerStr (getField r "Name")) (lowerStr (jsTrim q)) = true) := by
  constructor
  · unfold strictMatches
    rw [List.mem_filter]
    simp
  · unfold permMatches
    rw [List.mem_filter]

/-- Witness for C1 at a concrete query and table. -/
theorem claim_C1_matching_witness :
    (aliceRow ∈ strictMatches [aliceRow] (jsTrim "Alice") ↔
      aliceRow ∈ [aliceRow] ∧
        lowerStr (getField aliceRow "Name") = lowerStr (jsTrim "Alice")) ∧
    (aliceRow ∈ permMatches [aliceRow] "Alice" ↔
      aliceRow ∈ [aliceRow] ∧
        hasSubStr (lowerStr (getField aliceRow "Name"))
          (lowerStr (jsTrim "Alice")) = true) :=
  claim_C1_matching "Alice" [aliceRow] aliceRow (by decide)

/-- C3: parsing a spreadsheet of one header row plus `N` data rows with
`part_000`'s `loadSchedule` yields a table of exactly `N` entries. -/
theorem claim_C3_row_count (header : List String) (data : Grid) :
    (part000_loadGrid (header :: data)).length = data.length := by
  unfold part000_loadGrid
  cases data with
  | nil => simp
  | cons r rs => simp

/-- C5: an empty (missing, or whitespace-only) `name` parameter makes the
permissive variant return status 200 with every row of the table, and
makes the strict variant return status 400, for every table state.
A missing parameter reaches both handlers as the empty string. -/
theorem claim_C5_empty_query (q : String) (t rr : List Row) (hot : Bool)
    (hq : jsTrim q = "") :
    (serverJs_schedule q t).status = 200 ∧
    (serverJs_schedule q t).rows = t ∧
    (part000_schedule q t hot rr).status = 400 := by
  unfold serverJs_schedule part000_schedule
  rw [hq]
  have h1 : lowerStr "" = "" := rfl
  simp [h1]

/-- Witness for C5 at a whitespace-only query. -/
theorem claim_C5_empty_query_witness :
    (serverJs_schedule "  " [aliceRow]).status = 200 ∧
    (serverJs_schedule "  " [aliceRow]).rows = [aliceRow] ∧
    (part000_schedule "  " [aliceRow] false []).status = 400 :=
  claim_C5_empty_query "  " [aliceRow] [] false (by decide)

/-- C7: in both variants a failed load (missing file, or a file the
spreadsheet parser cannot read) leaves the table exactly empty; neither
`loadSchedule` propagates an error (both are total functions here, the
`catch` branches being the `malformed` case). -/
theorem claim_C7_failed_load_empty (fs : FileState)
    (h : fs = FileState.missing ∨ fs = FileState.malformed) :
    part000_load fs = [] ∧ serverJs_load fs = [] := by
  rcases h with h | h <;> subst h <;> exact ⟨rfl, rfl⟩

/-- Witness for C7 at the missing-file state. -/
theorem claim_C7_failed_load_empty_witness :
    part000_load FileState.missing = [] ∧ serverJs_load FileState.missing = [] :=
  claim_C7_failed_load_empty FileState.missing (Or.inl rfl)

/-- C9: `POST /admin/upload` accepts exactly the requests with a file
present, an Excel MIME type, and size at most 10 MiB
(`specUploadAccepts`, the spec's acceptance condition); an accepted file
is stored as `schedule.xlsx` and the table is reloaded before the
response; every rejection is a 400 with a non-empty reason. -/
theorem claim_C9_upload (present : Bool) (mime : String) (size : Nat) :
    ((adminUpload present mime size).status =
      if specUploadAccepts present mime size then 200 else 400) ∧
    ((adminUpload present mime size).storedAs =
      if specUploadAccepts present mime size then some "schedule.xlsx" else none) ∧
    ((adminUpload present mime size).reloaded = specUploadAccepts present mime size) ∧
    (∀ e, (adminUpload present mime size).reason = some e → e ≠ "") ∧
    (((adminUpload present mime size).reason = none) =
      (specUploadAccepts present mime size = true)) := by
  unfold adminUpload specUploadAccepts
  by_cases hp : present = true
  · by_cases hm : mime ∈ allowedMimes
    · by_cases hs : maxUploadBytes < size
      · have hs2 : ¬ size ≤ maxUploadBytes := Nat.not_le.mpr hs
        simp [hp, hm, hs, hs2]
      · have hs2 : size ≤ maxUploadBytes := Nat.le_of_not_lt hs
        simp [hp, hm, hs, hs2]
    · simp [hp, hm]
  · simp [hp]

/-- C2 counterexample: a sheet whose only data cell is `" Alice "` is
parsed by `server.js`'s `loadSchedule` into a row whose `Name` field
keeps its leading and trailing spaces, so the claim "every field of every
row is a trimmed string, in both variants" is false for `server.js`. -/
theorem claim_C2_counterexample :
    serverJs_loadGrid [["Name"], [" Alice "]] = [[("Name", " Alice ")]] ∧
    noEdgeWs " Alice " = false := by
  constructor
  · rfl
  · rfl

/-- C2 amended: in `part_000`'s `loadSchedule` every field of every
parsed row is a trimmed string (`server.js` stores the raw cell values
unchanged, as the counterexample shows). -/
theorem claim_C2_trimmed_fields (grid : Grid) (row : Row) (kv : String × String)
    (h1 : row ∈ part000_loadGrid grid) (h2 : kv ∈ row) :
    noEdgeWs kv.2 = true := by
  unfold part000_loadGrid at h1
  split at h1
  · simp at h1
  · rcases List.mem_map.mp h1 with ⟨cells, _, hcells⟩
    subst hcells
    unfold part000_rowOf at h2
    simp only [List.mem_cons, List.not_mem_nil, or_false] at h2
    rcases h2 with h | h | h | h | h <;> subst h <;> exact noEdgeWs_jsTrim _

/-- Witness for C2's amended theorem at a concrete one-cell sheet. -/
theorem claim_C2_trimmed_fields_witness :
    noEdgeWs (("Name", "a") : String × String).2 = true :=
  claim_C2_trimmed_fields [["H"], [" a "]] (part000_rowOf [" a "]) ("Name", "a")
    (by decide) (by decide)

/-- C4 counterexample: for the no-match query `<b>` against a one-row
table, `part_000`'s 404 body interpolates the query unescaped: it does
not contain the HTML-escaped form `&lt;b&gt;` and it does contain a raw
`<`; moreover even `server.js`'s 404 body contains raw `<`/`>` (from its
own markup), so "the body contains no raw `<`, `>`, or `&`" fails in
both variants. -/
theorem claim_C4_counterexample :
    (part000_schedule "<b>" [aliceRow] false []).status = 404 ∧
    hasSubStr (part000_schedule "<b>" [aliceRow] false []).body (escapeHtml "<b>") = false ∧
    noAngles (part000_schedule "<b>" [aliceRow] false []).body = false ∧
    noAngles (serverJs_schedule "zzz" [aliceRow]).body = false := by
  refine ⟨rfl, ?_, ?_, ?_⟩ <;> decide

/-- C4 amended: on a no-match query both variants return 404;
`server.js`'s body contains the HTML-escaped form of the original query,
and that escaped text itself contains no raw `<` or `>` (the raw angle
brackets in the body come only from the fixed markup); `part_000`'s body
instead contains the trimmed query text verbatim, unescaped. -/
theorem claim_C4_escaped_404 (q : String) (t rr : List Row)
    (hq : lowerStr (jsTrim q) ≠ "")
    (hperm : permMatches t q = [])
    (hstrict : strictMatches t (jsTrim q) = [])
    (hne : t ≠ []) :
    (serverJs_schedule q t).status = 404 ∧
    hasSubStr (serverJs_schedule q t).body (escapeHtml q) = true ∧
    noAngles (escapeHtml q) = true ∧
    (part000_schedule q t false rr).status = 404 ∧
    hasSubStr (part000_schedule q t false rr).body (jsTrim q) = true := by
  have hq0 : jsTrim q ≠ "" := by
    intro h
    exact hq (by rw [h]; rfl)
  have hsj : serverJs_schedule q t =
      { status := 404, body := serverJs_notFoundBody q, rows := [], reloads := 0 } := by
    unfold serverJs_schedule
    rw [if_neg (by simp [hq])]
    dsimp only
    rw [hperm]
    rfl
  have hp0 : part000_schedule q t false rr =
      part000_render (jsTrim q) t 0 := by
    unfold part000_schedule
    rw [if_neg (by simp [hq0])]
    dsimp only
    rw [if_neg (by simp [List.length_eq_zero, hne])]
    rfl
  have hp1 : part000_render (jsTrim q) t 0 =
      { status := 404, body := part000_notFoundBody (jsTrim q), reloads := 0 } := by
    unfold part000_render
    dsimp only
    rw [hstrict]
    rfl
  rw [hsj, hp0, hp1]
  refine ⟨rfl, ?_, noAngles_escapeHtml q, rfl, ?_⟩
  · unfold serverJs_notFoundBody
    exact hasSubStr_sandwich _ _ _
  · unfold part000_notFoundBody
    exact hasSubStr_sandwich _ _ _

/-- Witness for C4's amended theorem at a concrete no-match query. -/
theorem claim_C4_escaped_404_witness :
    (serverJs_schedule "Zed" [aliceRow]).status = 404 ∧
    hasSubStr (serverJs_schedule "Zed" [aliceRow]).body (escapeHtml "Zed") = true ∧
    noAngles (escapeHtml "Zed") = true ∧
    (part000_schedule "Zed" [aliceRow] false []).status = 404 ∧
    hasSubStr (part000_schedule "Zed" [aliceRow] false []).body (jsTrim "Zed") = true :=
  claim_C4_escaped_404 "Zed" [aliceRow] [] (by decide) (by decide) (by decide)
    (by decide)

/-- C6 counterexample: in `server.js`, with an empty table and a
non-matching query, `GET /schedule` returns 404 having attempted zero
reloads — the handler never calls `loadSchedule` — so the claim that
every variant attempts exactly one reload before a 404 is false. -/
theorem claim_C6_counterexample :
    (serverJs_schedule "x" []).status = 404 ∧
    (serverJs_schedule "x" []).reloads = 0 := by
  constructor
  · rfl
  · rfl

/-- C6 amended: in `part_000`, when the trimmed name is non-empty, the
table is empty and the hot-reload branch did not fire, the handler
attempts exactly one reload, and returns 404 when that reload yields an
empty table; `server.js`'s handler never attempts a reload. -/
theorem claim_C6_reload_once (q : String) (rr : List Row) (hq : jsTrim q ≠ "") :
    ((part000_schedule q [] false rr).reloads = 1 ∧
     (rr = [] → (part000_schedule q [] false rr).status = 404)) ∧
    (∀ (q2 : String) (t : List Row), (serverJs_schedule q2 t).reloads = 0) := by
  constructor
  · unfold part000_schedule
    rw [if_neg (by simp [hq])]
    cases rr with
    | nil => exact ⟨rfl, fun _ => rfl⟩
    | cons a l =>
      refine ⟨?_, fun h => by cases h⟩
      show (part000_render (jsTrim q) (a :: l) (0 + 1)).reloads = 1
      rw [part000_render_reloads]
  · intro q2 t
    unfold serverJs_schedule
    dsimp only
    split
    · rfl
    · split <;> rfl

/-- Witness for C6's amended theorem at a concrete query. -/
theorem claim_C6_reload_once_witness :
    ((part000_schedule "x" [] false []).reloads = 1 ∧
     (([] : List Row) = [] → (part000_schedule "x" [] false []).status = 404)) ∧
    (∀ (q2 : String) (t : List Row), (serverJs_schedule q2 t).reloads = 0) :=
  claim_C6_reload_once "x" [] (by decide)

/-- C10: every row produced by `part_000`'s `loadSchedule` carries
exactly the five fields Name, Day, Time, Activity, Description (in that
order), never a Location field; the row depends only on the first five
cells (later columns are discarded); and each of the five fields whose
cell is missing is present with the empty-string value. -/
theorem claim_C10_row_shape (header : List String) (data : Grid) (row : Row)
    (h : row ∈ part000_loadGrid (header :: data)) :
    row.map Prod.fst = fieldNames ∧
    row.lookup "Location" = none ∧
    ∃ cells, cells ∈ data ∧ row = part000_rowOf cells ∧
      part000_rowOf cells = part000_rowOf (cells.take 5) ∧
      ∀ i : Fin 5, cells.length ≤ i.val →
        row.lookup (fieldNames.get ⟨i.val, i.isLt⟩) = some "" := by
  unfold part000_loadGrid at h
  split at h
  · simp at h
  · rcases List.mem_map.mp h with ⟨cells, hmem, hcells⟩
    subst hcells
    refine ⟨rfl, rfl, cells, hmem, rfl, ?_, ?_⟩
    · have h5 : ∀ (i : Nat), i < 5 → (cells.take 5).getD i "" = cells.getD i "" := by
        intro i hi
        rw [List.getD_eq_getElem?_getD, List.getD_eq_getElem?_getD,
          List.getElem?_take, if_pos hi]
      unfold part000_rowOf
      rw [h5 0 (by omega), h5 1 (by omega), h5 2 (by omega), h5 3 (by omega),
        h5 4 (by omega)]
    · intro i hlen
      fin_cases i
      · show (part000_rowOf cells).lookup "Name" = some ""
        have h0 : cells[0]? = none := List.getElem?_eq_none (by simpa using hlen)
        simp [part000_rowOf, List.lookup, h0, jsTrim_empty]
      · show (part000_rowOf cells).lookup "Day" = some ""
        have h0 : cells[1]? = none := List.getElem?_eq_none (by simpa using hlen)
        simp [part000_rowOf, List.lookup, h0, jsTrim_empty]
      · show (part000_rowOf cells).lookup "Time" = some ""
        have h0 : cells[2]? = none := List.getElem?_eq_none (by simpa using hlen)
        simp [part000_rowOf, List.lookup, h0, jsTrim_empty]
      · show (part000_rowOf cells).lookup "Activity" = some ""
        have h0 : cells[3]? = none := List.getElem?_eq_none (by simpa using hlen)
        simp [part000_rowOf, List.lookup, h0, jsTrim_empty]
      · show (part000_rowOf cells).lookup "Description" = some ""
        have h0 : cells[4]? = none := List.getElem?_eq_none (by simpa using hlen)
        simp [part000_rowOf, List.lookup, h0, jsTrim_empty]

/-- Witness for C10 at a concrete one-cell data row. -/
theorem claim_C10_row_shape_witness :
    (part000_rowOf [" x "]).map Prod.fst = fieldNames ∧
    (part000_rowOf [" x "]).lookup "Location" = none ∧
    ∃ cells, cells ∈ [[" x "]] ∧ part000_rowOf [" x "] = part000_rowOf cells ∧
      part000_rowOf cells = part000_rowOf (cells.take 5) ∧
      ∀ i : Fin 5, cells.length ≤ i.val →
        (part000_rowOf [" x "]).lookup (fieldNames.get ⟨i.val, i.isLt⟩) = some "" :=
  claim_C10_row_shape ["H"] [[" x "]] (part000_rowOf [" x "]) (by decide)

/-- C8: whenever the table has rows for both Monday and Tuesday (however
interleaved in source order), the grouped page rendered by `server.js`'s
`GET /schedule` lists the Monday section strictly before the Tuesday
section, and more generally the day groups appear sorted by the fixed
Monday..Sunday order (`dayLe`). -/
theorem claim_C8_monday_before_tuesday (t : List Row)
    (hM : ∃ r ∈ t, dayOf r = "Monday") (hT : ∃ r ∈ t, dayOf r = "Tuesday") :
    List.Sorted dayLe (sortedDays t) ∧
    ∃ s1 s2 s3, (serverJs_schedule "" t).body =
      s1 ++ daySection "Monday" t ++ s2 ++ daySection "Tuesday" t ++ s3 := by
  have hsorted : List.Sorted dayLe (sortedDays t) :=
    List.sorted_insertionSort dayLe (firstKeys t)
  refine ⟨hsorted, ?_⟩
  have hMs : "Monday" ∈ sortedDays t := by
    unfold sortedDays
    rw [List.mem_insertionSort]
    exact (mem_firstKeys _ _).mpr hM
  have hTs : "Tuesday" ∈ sortedDays t := by
    unfold sortedDays
    rw [List.mem_insertionSort]
    exact (mem_firstKeys _ _).mpr hT
  rcases sorted_mem_split _ hsorted hMs hTs with ⟨a, b, c, hsplit⟩
  have hbody : (serverJs_schedule "" t).body =
      "<div style=\"font-family: system-ui, sans-serif;\">" ++ "<h2>Full Schedule</h2>" ++
      strConcat ((sortedDays t).map (fun d => daySection d t)) ++ footerHtml := rfl
  refine ⟨"<div style=\"font-family: system-ui, sans-serif;\">" ++ "<h2>Full Schedule</h2>" ++
      strConcat (a.map (fun d => daySection d t)),
    strConcat (b.map (fun d => daySection d t)),
    strConcat (c.map (fun d => daySection d t)) ++ footerHtml, ?_⟩
  rw [hbody, hsplit]
  simp [List.map_append, strConcat_append, strConcat, String.append_assoc]

/-- Witness for C8 at a concrete table with a Tuesday row listed before a
Monday row in source order. -/
theorem claim_C8_monday_before_tuesday_witness :
    List.Sorted dayLe (sortedDays [bobRow, aliceRow]) ∧
    ∃ s1 s2 s3, (serverJs_schedule "" [bobRow, aliceRow]).body =
      s1 ++ daySection "Monday" [bobRow, aliceRow] ++ s2 ++
      daySection "Tuesday" [bobRow, aliceRow] ++ s3 :=
  claim_C8_monday_before_tuesday [bobRow, aliceRow]
    (by decide) (by decide)

/-- Witness for C9 at a concrete rejected request. -/
theorem claim_C9_upload_witness :
    ((adminUpload false "text/plain" 0).status =
      if specUploadAccepts false "text/plain" 0 then 200 else 400) ∧
    ((adminUpload false "text/plain" 0).storedAs =
      if specUploadAccepts false "text/plain" 0 then some "schedule.xlsx" else none) ∧
    ((adminUpload false "text/plain" 0).reloaded = specUploadAccepts false "text/plain" 0) ∧
    (∀ e, (adminUpload false "text/plain" 0).reason = some e → e ≠ "") ∧
    (((adminUpload false "text/plain" 0).reason = none) =
      (specUploadAccepts false "text/plain" 0 = true)) :=
  claim_C9_upload false "text/plain" 0

end SchedApp
